import Mathlib

/-!
# Verification of the habitat butterfly gossip/SWIM core

Shallow embedding of the rumor types, their merge rules, the protobuf-level
decoders and the inbound SWIM dispatch of `components/butterfly`, together
with theorems settling the specification claims about them.

Conventions:
* Rust `u64` values (incarnations, terms, suitabilities) are modelled as
  `Nat`; the code only compares them, and comparison on `u64` agrees with
  comparison on `Nat`.
* Rust `i32` values (ports, wire enum discriminants) are modelled as `Int`.
* Byte vectors are modelled as `List Nat` (one entry per byte).
* Rust `String` ordering is byte-wise lexicographic on UTF-8, which agrees
  with the codepoint-lexicographic `LinearOrder` on Lean `String`.
* Fallible Rust functions returning `Result` are modelled with `Except Err`;
  a `panic!` branch is modelled by the distinguished error `Err.panicked`.
-/

/-- Computable decidability for `<` on `String`: the library instance goes
through the well-founded `ltb` and does not reduce in the kernel, which
would block `decide` on concrete merges; route through the list order. -/
instance stringComputableDecLT (s₁ s₂ : String) : Decidable (s₁ < s₂) :=
  decidable_of_iff (s₁.toList < s₂.toList) String.lt_iff_toList_lt.symm

/-- Computable decidability for `≤` on `String` (`s₁ ≤ s₂` unfolds to
`¬ s₂ < s₁`). -/
instance stringComputableDecLE (s₁ s₂ : String) : Decidable (s₁ ≤ s₂) :=
  inferInstanceAs (Decidable (Not _))

/-- Error kinds of `butterfly::error::Error` that the modelled code paths can
produce.  `protocolMismatch` carries the field name the code reports. -/
inductive Err where
  | protocolMismatch (field : String)
  | serviceGroupParse (s : String)
  | panicked (msg : String)
  deriving DecidableEq, Repr

/-- A parsed service group.  The real type lives in `habitat_core` (outside
this repository); rumor code only compares service groups for equality and
turns them back into strings, so it is modelled as a wrapper around the
original string. -/
structure ServiceGroup where
  str : String
  deriving DecidableEq, Repr, Inhabited

/-- Modelled from the spec: `habitat_core::service::ServiceGroup::from_str`
is not under `src/`; the spec describes a service group as
"(service, environment, optional-organization)" written `service.group`.
The parser is modelled as accepting exactly the strings containing a `.`
separator, which is all the rumor layer relies on (parse can fail; a parsed
group remembers its string). -/
def ServiceGroup.fromStr (s : String) : Except Err ServiceGroup :=
  if s.data.contains '.' then .ok ⟨s⟩ else .error (.serviceGroupParse s)

/-- `protocol::newscast::election::Status` (generated enum, values 1/2/3). -/
inductive ElectionStatus where
  | Running
  | NoQuorum
  | Finished
  deriving DecidableEq, Repr, Inhabited

/-- `Status::from_i32` as generated by prost: known discriminants map to the
variant, anything else to `none`. -/
def ElectionStatus.from_i32 : Int → Option ElectionStatus
  | 1 => some .Running
  | 2 => some .NoQuorum
  | 3 => some .Finished
  | _ => none

/-- `rumor::election::Election` (election.rs lines 37-46). -/
structure Election where
  from_id : String
  member_id : String
  service_group : ServiceGroup
  term : Nat
  suitability : Nat
  status : ElectionStatus
  votes : List String
  deriving DecidableEq, Repr, Inhabited

/-- `PartialEq for Election` (election.rs lines 102-109): equality ignores
`from_id`. -/
def electionEq (a b : Election) : Bool :=
  a.service_group == b.service_group && a.member_id == b.member_id
    && a.suitability == b.suitability && a.votes == b.votes
    && a.status == b.status && a.term == b.term

/-- `Election::insert_vote` (election.rs lines 68-72). -/
def Election.insert_vote (e : Election) (member_id : String) : Election :=
  if e.votes.contains member_id then e
  else { e with votes := e.votes ++ [member_id] }

/-- `Election::steal_votes` (election.rs lines 75-79): fold `insert_vote`
over the other election's voter list. -/
def Election.steal_votes (e other : Election) : Election :=
  other.votes.foldl Election.insert_vote e

/-- `<Election as Rumor>::merge` (election.rs lines 140-182).  Returns the
new value of `self` together with the "changed?" boolean the function
returns.  String comparison of member ids is Rust's lexicographic `String`
order. -/
def Election.merge (self other : Election) : Election × Bool :=
  if electionEq self other then
    (self, false)
  else if other.term ≥ self.term ∧ other.status = ElectionStatus.Finished then
    (other, true)
  else if other.term = self.term ∧ self.status = ElectionStatus.Finished then
    (self, false)
  else if self.term > other.term then
    (self, true)
  else if self.suitability > other.suitability then
    (self.steal_votes other, true)
  else if other.suitability > self.suitability then
    (other.steal_votes self, true)
  else if other.member_id ≤ self.member_id then
    (self.steal_votes other, true)
  else
    (other.steal_votes self, true)

/-- Ordered union of voter lists: appends each id of `ys` that is not
already present (the effect of folding `insert_vote` over `ys`). -/
def voteUnion (xs ys : List String) : List String :=
  ys.foldl (fun acc v => if acc.contains v then acc else acc ++ [v]) xs

/-- `butterfly.swim.SysInfo` (generated protobuf message; service.rs re-uses
it directly as the domain type of `Service.sys`). -/
structure SysInfo where
  ip : Option String := none
  hostname : Option String := none
  gossip_ip : Option String := none
  gossip_port : Option Nat := none
  http_gateway_ip : Option String := none
  http_gateway_port : Option Nat := none
  ctl_gateway_ip : Option String := none
  ctl_gateway_port : Option Nat := none
  deriving DecidableEq, Repr, Inhabited

/-- `rumor::service::Service` (service.rs lines 35-44). -/
structure Service where
  member_id : String
  service_group : ServiceGroup
  incarnation : Nat
  initialized : Bool
  pkg : String
  cfg : List Nat
  sys : SysInfo
  deriving DecidableEq, Repr, Inhabited

/-- `PartialOrd for Service` (service.rs lines 46-54): comparable only when
member ids and service groups both match, then ordered by incarnation. -/
def Service.cmpTo (a b : Service) : Option Ordering :=
  if a.member_id ≠ b.member_id ∨ a.service_group ≠ b.service_group then none
  else some (compare a.incarnation b.incarnation)

/-- Rust's derived `>=` on a `PartialOrd` type: true exactly when
`partial_cmp` returns `Greater` or `Equal`; false when `Less` or when the
values are incomparable (`None`). -/
def geOfCmp : Option Ordering → Bool
  | some .gt => true
  | some .eq => true
  | _ => false

/-- `<Service as Rumor>::merge` (service.rs lines 147-154): keep `self` and
return false when `*self >= other`, otherwise swap in `other` and return
true. -/
def Service.merge (self other : Service) : Service × Bool :=
  if geOfCmp (self.cmpTo other) then (self, false) else (other, true)

/-- `rumor::service_config::ServiceConfig` (service_config.rs lines 31-38). -/
structure ServiceConfig where
  from_id : String
  service_group : ServiceGroup
  incarnation : Nat
  encrypted : Bool
  config : List Nat
  deriving DecidableEq, Repr, Inhabited

/-- `PartialOrd for ServiceConfig` (service_config.rs lines 40-48):
comparable only within one service group, ordered by incarnation. -/
def ServiceConfig.cmpTo (a b : ServiceConfig) : Option Ordering :=
  if a.service_group ≠ b.service_group then none
  else some (compare a.incarnation b.incarnation)

/-- `<ServiceConfig as Rumor>::merge` (service_config.rs lines 122-129). -/
def ServiceConfig.merge (self other : ServiceConfig) : ServiceConfig × Bool :=
  if geOfCmp (self.cmpTo other) then (self, false) else (other, true)

/-- `rumor::service_file::ServiceFile` (service_file.rs lines 32-40). -/
structure ServiceFile where
  from_id : String
  service_group : ServiceGroup
  incarnation : Nat
  encrypted : Bool
  filename : String
  body : List Nat
  deriving DecidableEq, Repr, Inhabited

/-- `PartialOrd for ServiceFile` (service_file.rs lines 42-50). -/
def ServiceFile.cmpTo (a b : ServiceFile) : Option Ordering :=
  if a.service_group ≠ b.service_group then none
  else some (compare a.incarnation b.incarnation)

/-- `<ServiceFile as Rumor>::merge` (service_file.rs lines 144-151). -/
def ServiceFile.merge (self other : ServiceFile) : ServiceFile × Bool :=
  if geOfCmp (self.cmpTo other) then (self, false) else (other, true)

/-- `butterfly.swim.Member` (generated protobuf message; every field
optional). -/
structure GenMember where
  id : Option String := none
  incarnation : Option Nat := none
  address : Option String := none
  swim_port : Option Int := none
  gossip_port : Option Int := none
  persistent : Option Bool := none
  departed : Option Bool := none
  deriving DecidableEq, Repr, Inhabited

/-- `membership::Health` (generated enum, values 1-4). -/
inductive Health where
  | Alive
  | Suspect
  | Confirmed
  | Departed
  deriving DecidableEq, Repr, Inhabited

/-- `Health::from_i32` as generated by prost. -/
def Health.from_i32 : Int → Option Health
  | 1 => some .Alive
  | 2 => some .Suspect
  | 3 => some .Confirmed
  | 4 => some .Departed
  | _ => none

/-- `health as i32` for the known variants. -/
def Health.toI32 : Health → Int
  | .Alive => 1
  | .Suspect => 2
  | .Confirmed => 3
  | .Departed => 4

/-- `butterfly.swim.Membership` (generated protobuf message). -/
structure GenMembership where
  member : Option GenMember := none
  health : Option Int := none
  deriving DecidableEq, Repr, Inhabited

/-- `protocol::swim::Member`, the domain member type (protocol/swim.rs lines
117-125). -/
structure Member where
  id : String
  incarnation : Nat
  address : String
  swim_port : Int
  gossip_port : Int
  persistent : Bool
  departed : Bool
  deriving DecidableEq, Repr, Inhabited

/-- `protocol::swim::Membership`, the domain membership record
(protocol/swim.rs lines 191-195).  Named `MembershipRecord` here because
`Membership` is taken by a type class of the Lean library. -/
structure MembershipRecord where
  member : Member
  health : Health
  deriving DecidableEq, Repr, Inhabited

/-- `FromProto<gen::Member> for Member` (protocol/swim.rs lines 246-260):
id, address and the two ports are required; incarnation defaults to 0,
the two flags to false. -/
def Member.from_proto (proto : GenMember) : Except Err Member :=
  match proto.id with
  | none => .error (.protocolMismatch "id")
  | some id =>
  match proto.address with
  | none => .error (.protocolMismatch "address")
  | some address =>
  match proto.swim_port with
  | none => .error (.protocolMismatch "swim-port")
  | some swim_port =>
  match proto.gossip_port with
  | none => .error (.protocolMismatch "gossip-port")
  | some gossip_port =>
  .ok { id := id
        incarnation := proto.incarnation.getD 0
        address := address
        swim_port := swim_port
        gossip_port := gossip_port
        persistent := proto.persistent.getD false
        departed := proto.departed.getD false }

/-- `FromProto<gen::Membership> for Membership` (protocol/swim.rs lines
262-275): the member is required; an absent or unrecognized health enum
value falls back to `Alive` via `unwrap_or`. -/
def MembershipRecord.from_proto (proto : GenMembership) :
    Except Err MembershipRecord :=
  match proto.member with
  | none => .error (.protocolMismatch "member")
  | some m =>
  match Member.from_proto m with
  | .error e => .error e
  | .ok member =>
  .ok { member := member
        health := (proto.health.bind Health.from_i32).getD Health.Alive }

/-- Modelled from the spec: the infallible `gen::Member → Member`
conversion invoked through `.into()` in `Ping/Ack/PingReq::from_proto` is
not under `src/`.  It is modelled with the same field handling as
`Member::from_proto` (protocol/swim.rs lines 246-260) except that, being
infallible, required fields fall back to prost's defaults (empty string /
zero) instead of erroring. -/
def memberOfGenLossy (proto : GenMember) : Member :=
  { id := proto.id.getD ""
    incarnation := proto.incarnation.getD 0
    address := proto.address.getD ""
    swim_port := proto.swim_port.getD 0
    gossip_port := proto.gossip_port.getD 0
    persistent := proto.persistent.getD false
    departed := proto.departed.getD false }

/-- Modelled from the spec: the infallible `gen::Membership → Membership`
conversion invoked through `.into()` when decoding SWIM messages is not
under `src/`; modelled like `Membership::from_proto` (protocol/swim.rs
lines 262-275) with the lossy member conversion. -/
def membershipOfGenLossy (proto : GenMembership) : MembershipRecord :=
  { member := memberOfGenLossy (proto.member.getD {})
    health := (proto.health.bind Health.from_i32).getD Health.Alive }

/-- `butterfly.swim.Ping` (generated).  Rust's field `from` is a Lean
keyword and is written `from_` here. -/
structure GenPing where
  from_ : Option GenMember := none
  forward_to : Option GenMember := none
  deriving DecidableEq, Repr, Inhabited

/-- `butterfly.swim.Ack` (generated). -/
structure GenAck where
  from_ : Option GenMember := none
  forward_to : Option GenMember := none
  deriving DecidableEq, Repr, Inhabited

/-- `butterfly.swim.PingReq` (generated). -/
structure GenPingReq where
  from_ : Option GenMember := none
  target : Option GenMember := none
  deriving DecidableEq, Repr, Inhabited

/-- `swim::Payload`, the oneof of a generated `Swim` record. -/
inductive GenSwimPayload where
  | ping (p : GenPing)
  | ack (a : GenAck)
  | pingreq (p : GenPingReq)
  deriving DecidableEq, Repr

/-- `butterfly.swim.Swim` (generated): required type discriminant,
piggybacked membership, oneof payload. -/
structure GenSwim where
  type_ : Int
  membership : List GenMembership := []
  payload : Option GenSwimPayload := none
  deriving DecidableEq, Repr

/-- `protocol::swim::PingReq`, the domain ping-request (protocol/swim.rs
lines 338-343). -/
structure PingReq where
  membership : List MembershipRecord
  from_ : Member
  target : Member
  deriving DecidableEq, Repr, Inhabited

/-- `FromProto<gen::Swim> for PingReq` (protocol/swim.rs lines 345-360).
A missing payload errors as `protocolMismatch "payload"`, a payload of the
wrong variant panics, a missing `from` errors as `protocolMismatch "from"`
— and so does a missing `target`: the code passes the string `"from"` to
`ProtocolMismatch` on the `target` line as well. -/
def PingReq.from_proto (value : GenSwim) : Except Err PingReq :=
  match value.payload with
  | none => .error (.protocolMismatch "payload")
  | some (.ping _) => .error (.panicked "try-from pingreq")
  | some (.ack _) => .error (.panicked "try-from pingreq")
  | some (.pingreq payload) =>
  match payload.from_ with
  | none => .error (.protocolMismatch "from")
  | some f =>
  match payload.target with
  | none => .error (.protocolMismatch "from")
  | some t =>
  .ok { membership := value.membership.map membershipOfGenLossy
        from_ := memberOfGenLossy f
        target := memberOfGenLossy t }

/-- `From<Member> for gen::Member` (protocol/swim.rs lines 177-189): every
field wrapped in `Some`. -/
def Member.toGen (value : Member) : GenMember :=
  { id := some value.id
    incarnation := some value.incarnation
    address := some value.address
    swim_port := some value.swim_port
    gossip_port := some value.gossip_port
    persistent := some value.persistent
    departed := some value.departed }

/-- `From<Membership> for gen::Membership` (protocol/swim.rs lines
238-245). -/
def MembershipRecord.toGen (value : MembershipRecord) : GenMembership :=
  { member := some value.member.toGen
    health := some value.health.toI32 }

/-- Protobuf base-128 varint encoding of a natural number (little-endian
7-bit groups, continuation bit on all but the last byte). -/
def varintBytes (n : Nat) : List Nat :=
  if h : n < 128 then [n]
  else (n % 128 + 128) :: varintBytes (n / 128)
termination_by n
decreasing_by exact Nat.div_lt_self (by omega) (by omega)

/-- Varint encoding of an `i32` value as prost emits it: non-negative
values directly, negative values sign-extended to 64 bits. -/
def varintI32 (v : Int) : List Nat :=
  varintBytes ((v % (2 ^ 64 : Int)).toNat)

/-- UTF-8 bytes of a string. -/
def utf8Bytes (s : String) : List Nat :=
  s.toUTF8.toList.map UInt8.toNat

/-- One optional protobuf field: omitted when `none`. -/
def optField {α : Type} (o : Option α) (f : α → List Nat) : List Nat :=
  match o with
  | none => []
  | some v => f v

/-- A length-delimited protobuf field with the given tag byte. -/
def lenDelim (tagByte : Nat) (bytes : List Nat) : List Nat :=
  tagByte :: varintBytes bytes.length ++ bytes

/-- A varint protobuf field with the given tag byte. -/
def varintField (tagByte : Nat) (bytes : List Nat) : List Nat :=
  tagByte :: bytes

/-- Protobuf encoding of a `gen::Member` record (field numbers from the
generated `butterfly.swim.rs`). -/
def GenMember.encode (m : GenMember) : List Nat :=
  optField m.id (fun s => lenDelim 0x0a (utf8Bytes s))
    ++ optField m.incarnation (fun n => varintField 0x10 (varintBytes n))
    ++ optField m.address (fun s => lenDelim 0x1a (utf8Bytes s))
    ++ optField m.swim_port (fun v => varintField 0x20 (varintI32 v))
    ++ optField m.gossip_port (fun v => varintField 0x28 (varintI32 v))
    ++ optField m.persistent (fun b => varintField 0x30 [if b then 1 else 0])
    ++ optField m.departed (fun b => varintField 0x38 [if b then 1 else 0])

/-- Protobuf encoding of a `gen::Membership` record. -/
def GenMembership.encode (mm : GenMembership) : List Nat :=
  optField mm.member (fun m => lenDelim 0x0a m.encode)
    ++ optField mm.health (fun h => varintField 0x10 (varintI32 h))

/-- `prost::Message::encoded_len` for a `gen::Membership`. -/
def GenMembership.encoded_len (mm : GenMembership) : Nat :=
  mm.encode.length

/-- A `BytesMut` buffer: only its contents are observable; the capacity
passed to `with_capacity` reserves space but stores nothing. -/
structure BytesMut where
  data : List Nat
  deriving DecidableEq, Repr

/-- `BytesMut::with_capacity`: an empty buffer, whatever the capacity. -/
def BytesMut.with_capacity (_capacity : Nat) : BytesMut := ⟨[]⟩

/-- `BytesMut::to_vec`: the buffer's current contents. -/
def BytesMut.to_vec (b : BytesMut) : List Nat := b.data

/-- `Membership::write_to_bytes` (protocol/swim.rs lines 231-236): converts
to the generated record, allocates a buffer sized to its encoded length,
and returns the buffer's contents — without ever encoding into it. -/
def MembershipRecord.write_to_bytes (self : MembershipRecord) :
    Except Err (List Nat) :=
  let rumor : GenMembership := self.toGen
  let bytes := BytesMut.with_capacity rumor.encoded_len
  .ok bytes.to_vec

/-- `butterfly.swim.Election` (generated protobuf payload). -/
structure GenElection where
  member_id : Option String := none
  service_group : Option String := none
  term : Option Nat := none
  suitability : Option Nat := none
  status : Option Int := none
  votes : List String := []
  deriving DecidableEq, Repr, Inhabited

/-- `butterfly.swim.Service` (generated protobuf payload). -/
structure GenService where
  member_id : Option String := none
  service_group : Option String := none
  incarnation : Option Nat := none
  initialized : Option Bool := none
  pkg : Option String := none
  cfg : Option (List Nat) := none
  sys : Option SysInfo := none
  deriving DecidableEq, Repr, Inhabited

/-- `butterfly.swim.ServiceConfig` (generated protobuf payload). -/
structure GenServiceConfig where
  service_group : Option String := none
  incarnation : Option Nat := none
  encrypted : Option Bool := none
  config : Option (List Nat) := none
  deriving DecidableEq, Repr, Inhabited

/-- `butterfly.swim.ServiceFile` (generated protobuf payload). -/
structure GenServiceFile where
  service_group : Option String := none
  incarnation : Option Nat := none
  encrypted : Option Bool := none
  filename : Option String := none
  body : Option (List Nat) := none
  deriving DecidableEq, Repr, Inhabited

/-- `butterfly.swim.Departure` (generated protobuf payload). -/
structure GenDeparture where
  member_id : Option String := none
  deriving DecidableEq, Repr, Inhabited

/-- `rumor::Payload`, the oneof carried by a rumor record. -/
inductive RumorPayload where
  | member (m : GenMembership)
  | service (s : GenService)
  | serviceConfig (s : GenServiceConfig)
  | serviceFile (s : GenServiceFile)
  | election (e : GenElection)
  | departure (d : GenDeparture)
  deriving DecidableEq, Repr

/-- The wire rumor record consumed and produced by the rumor codecs
(`protocol::swim::Rumor` / `protocol::newscast::Rumor`).  The generated
`butterfly.swim.Rumor` under `src/` carries `type_`, `tag`, `from_id` and
the oneof `payload`; the rumor decoders additionally read the flat,
optional fields of the older hand-written codec (`rumor.member_id`,
`rumor.service_group`, `rumor.incarnation`, `rumor.initialized`,
`rumor.filename`, `rumor.body`, ...), whose defining module is not under
`src/`.  Both field sets are modelled here, each flat field optional and
absent (`none`, prost's default) unless a writer sets it. -/
structure ProtoRumor where
  type_ : Int
  tag : List String := []
  from_id : Option String := none
  payload : Option RumorPayload := none
  member_id : Option String := none
  service_group : Option String := none
  incarnation : Option Nat := none
  initialized : Option Bool := none
  pkg : Option String := none
  cfg : Option (List Nat) := none
  sys : Option SysInfo := none
  filename : Option String := none
  body : Option (List Nat) := none
  deriving DecidableEq, Repr

/-- `FromProto<ProtoRumor> for Election` (election.rs lines 113-136): the
envelope's `from_id` becomes both `from_id` and `member_id` of the decoded
election; the `member_id` field inside the election payload is never
read. -/
def Election.from_proto (rumor : ProtoRumor) : Except Err Election :=
  match rumor.payload with
  | none => .error (.protocolMismatch "payload")
  | some (.election payload) =>
    (match rumor.from_id with
     | none => .error (.protocolMismatch "from-id")
     | some from_id =>
     match payload.service_group with
     | none => .error (.protocolMismatch "service-group")
     | some s =>
     match ServiceGroup.fromStr s with
     | .error e => .error e
     | .ok service_group =>
     .ok { from_id := from_id
           member_id := from_id
           service_group := service_group
           term := payload.term.getD 0
           suitability := payload.suitability.getD 0
           status := (payload.status.bind ElectionStatus.from_i32).getD .Running
           votes := payload.votes })
  | some _ => .error (.panicked "from-bytes election")

/-- `RumorType::ServiceFile as i32` (generated `rumor::Type`). -/
def rumorTypeServiceFile : Int := 5

/-- `ServiceFile::from_bytes` (service_file.rs lines 102-119), modelled on
the decoded wire record (prost's `decode` of the bytes produced by
`encode` returns the record unchanged, so serialization is modelled at the
record level).  After checking the payload variant, every data field —
including the `initialized` one that lands in `encrypted` — is read from
the top-level rumor record, not from the payload. -/
def ServiceFile.from_bytes (rumor : ProtoRumor) : Except Err ServiceFile :=
  match rumor.payload with
  | none => .error (.protocolMismatch "payload")
  | some (.serviceFile _payload) =>
    (match rumor.from_id with
     | none => .error (.protocolMismatch "from-id")
     | some from_id =>
     match rumor.service_group with
     | none => .error (.protocolMismatch "service-group")
     | some s =>
     match ServiceGroup.fromStr s with
     | .error e => .error e
     | .ok service_group =>
     match rumor.filename with
     | none => .error (.protocolMismatch "filename")
     | some filename =>
     .ok { from_id := from_id
           service_group := service_group
           incarnation := rumor.incarnation.getD 0
           encrypted := rumor.initialized.getD false
           filename := filename
           body := rumor.body.getD [] })
  | some _ => .error (.panicked "from-bytes service-config")

/-- `ServiceFile::write_to_bytes` (service_file.rs lines 121-138), modelled
as the wire record it encodes: all data lives in the nested
`ProtoServiceFile` payload, and of the rumor record itself only `type_`,
`tag`, `from_id` and `payload` are populated (the source's
`self.member_id` on the `from_id` line can only mean the `from_id` field,
the sole id a `ServiceFile` carries). -/
def ServiceFile.write_to_bytes (self : ServiceFile) : ProtoRumor :=
  let payload : GenServiceFile :=
    { service_group := some self.service_group.str
      incarnation := some self.incarnation
      encrypted := some self.encrypted
      filename := some self.filename
      body := some self.body }
  { type_ := rumorTypeServiceFile
    tag := []
    from_id := some self.from_id
    payload := some (.serviceFile payload) }

/-- `swim::Type` (generated enum, values Ping=1 Ack=2 Pingreq=3). -/
inductive SwimType where
  | Ping
  | Ack
  | Pingreq
  deriving DecidableEq, Repr

/-- `protocol::swim::Ping`, the domain ping message (protocol/swim.rs lines
286-291). -/
structure PingMsg where
  membership : List MembershipRecord
  from_ : Member
  forward_to : Option Member
  deriving DecidableEq, Repr

/-- `protocol::swim::Ack`, the domain ack message (protocol/swim.rs lines
32-37). -/
structure AckMsg where
  membership : List MembershipRecord
  from_ : Member
  forward_to : Option Member
  deriving DecidableEq, Repr

/-- `protocol::swim::SwimKind` (protocol/swim.rs lines 388-393); the
inbound loop matches on it under the name `msg.payload`. -/
inductive SwimKind where
  | ping (p : PingMsg)
  | ack (a : AckMsg)
  | pingReq (p : PingReq)
  deriving DecidableEq, Repr

/-- `protocol::swim::Swim`, a decoded SWIM message (protocol/swim.rs lines
395-400). -/
structure Swim where
  type_ : SwimType
  membership : List MembershipRecord
  kind : SwimKind
  deriving DecidableEq, Repr

/-- One observable action of the inbound thread, in program order.
`ingest` stands for `server.insert_member_from_rumor(member, health)` — the
ingestion of one piggybacked membership record into the member list;
`insertSender` for `server.insert_member`; the rest are sends. -/
inductive Effect where
  | sendAck (dest : Member) (addrIp : String) (forward : Option Member)
  | sendPing (target : Member) (forward : Option Member)
  | forwardAck (forwardAddr : String) (members : List MembershipRecord)
      (ack : AckMsg)
  | txOutbound (addrIp : String) (ack : AckMsg)
  | insertSender (m : Member) (h : Health)
  | ingest (member : Member) (health : Health)
  deriving DecidableEq, Repr

/-- `Inbound::process_ping` (inbound.rs lines 208-223): reply with an Ack
to the original sender, insert the sender (address rewritten to the
observed remote IP) as Departed or Alive, then ingest every piggybacked
membership record. -/
def processPing (addrIp : String) (members : List MembershipRecord)
    (msg : PingMsg) : List Effect :=
  let updatedFrom := { msg.from_ with address := addrIp }
  Effect.sendAck msg.from_ addrIp msg.forward_to
    :: Effect.insertSender updatedFrom
        (if updatedFrom.departed then Health.Departed else Health.Alive)
    :: members.map (fun m => Effect.ingest m.member m.health)

/-- `Inbound::process_ack` (inbound.rs lines 169-205): an Ack whose
`forward_to` names another member is forwarded (after rewriting the
sender's address to the observed remote IP) and the handler returns —
before the ingestion loop; otherwise the Ack goes to the outbound thread
and every piggybacked membership record is ingested.  `parseOk` models
whether `std`'s `SocketAddr` parser accepts the forward address string. -/
def processAck (selfId : String) (parseOk : String → Bool) (addrIp : String)
    (members : List MembershipRecord) (msg : AckMsg) : List Effect :=
  match msg.forward_to with
  | some fwd =>
    if selfId ≠ fwd.id then
      if parseOk (fwd.address ++ ":" ++ toString fwd.swim_port) then
        [Effect.forwardAck (fwd.address ++ ":" ++ toString fwd.swim_port)
          members { msg with from_ := { msg.from_ with address := addrIp } }]
      else
        []
    else
      Effect.txOutbound addrIp msg
        :: members.map (fun m => Effect.ingest m.member m.health)
  | none =>
    Effect.txOutbound addrIp msg
      :: members.map (fun m => Effect.ingest m.member m.health)

/-- `Inbound::process_pingreq` (inbound.rs lines 145-166): look the target
up in the member list; if present, ping it with the route-back member set
to the original sender at the observed remote IP; if absent, do nothing.
The piggybacked membership records are never touched. -/
def processPingReq (memberList : String → Option Member) (addrIp : String)
    (_members : List MembershipRecord) (msg : PingReq) : List Effect :=
  match memberList msg.target.id with
  | some target =>
    [Effect.sendPing target (some { msg.from_ with address := addrIp })]
  | none => []

/-- The dispatch of `Inbound::run` on one successfully decoded SWIM message
(inbound.rs lines 83-121), including the blacklist checks: a blacklisted
Ping or PingReq is dropped, a blacklisted Ack is dropped only when it has
no `forward_to`. -/
def handleSwim (selfId : String) (blacklist : List String)
    (memberList : String → Option Member) (parseOk : String → Bool)
    (addrIp : String) (msg : Swim) : List Effect :=
  match msg.kind with
  | .ping p =>
    if blacklist.contains p.from_.id then []
    else processPing addrIp msg.membership p
  | .ack a =>
    if blacklist.contains a.from_.id && a.forward_to.isNone then []
    else processAck selfId parseOk addrIp msg.membership a
  | .pingReq p =>
    if blacklist.contains p.from_.id then []
    else processPingReq memberList addrIp msg.membership p

/-- The membership records a list of effects ingests into the member list,
in order. -/
def ingestedRecords (effects : List Effect) : List MembershipRecord :=
  effects.filterMap fun e =>
    match e with
    | .ingest m h => some ⟨m, h⟩
    | _ => none

/-- Folding `insert_vote` over a list adds to the votes exactly the ordered
union computed by `voteUnion`. -/
theorem foldl_insert_vote_eq (l : List String) (a : Election) :
    l.foldl Election.insert_vote a = { a with votes := voteUnion a.votes l } := by
  induction l generalizing a with
  | nil => rfl
  | cons v vs ih =>
    simp only [List.foldl_cons]
    rw [ih]
    by_cases h : v ∈ a.votes
    · simp [Election.insert_vote, voteUnion, h]
    · simp [Election.insert_vote, voteUnion, h]

/-- `steal_votes` keeps every field but `votes`, and on `votes` computes the
ordered union. -/
theorem steal_votes_eq (a b : Election) :
    a.steal_votes b = { a with votes := voteUnion a.votes b.votes } :=
  foldl_insert_vote_eq b.votes a

theorem steal_votes_member_id (a b : Election) :
    (a.steal_votes b).member_id = a.member_id := by rw [steal_votes_eq]

theorem steal_votes_suitability (a b : Election) :
    (a.steal_votes b).suitability = a.suitability := by rw [steal_votes_eq]

theorem steal_votes_term (a b : Election) :
    (a.steal_votes b).term = a.term := by rw [steal_votes_eq]

theorem steal_votes_status (a b : Election) :
    (a.steal_votes b).status = a.status := by rw [steal_votes_eq]

theorem steal_votes_service_group (a b : Election) :
    (a.steal_votes b).service_group = a.service_group := by rw [steal_votes_eq]

/-- The pair an election competes with in the non-Finished, equal-term
fragment of `Election::merge`: suitability first, then member id,
lexicographically. -/
def keyE (e : Election) : Nat ×ₗ String :=
  toLex (e.suitability, e.member_id)

/-- In the fragment where neither side is Finished and the terms agree,
`Election::merge` selects the contender with the larger
(suitability, member id) key, preserves term and service group (up to the
two inputs) and never produces a Finished election. -/
theorem merge_key (x y : Election) (hx : x.status ≠ ElectionStatus.Finished)
    (hy : y.status ≠ ElectionStatus.Finished) (ht : x.term = y.term) :
    keyE (x.merge y).1 = max (keyE x) (keyE y)
      ∧ (x.merge y).1.status ≠ ElectionStatus.Finished
      ∧ (x.merge y).1.term = x.term
      ∧ ((x.merge y).1.service_group = x.service_group
          ∨ (x.merge y).1.service_group = y.service_group) := by
  unfold Election.merge
  split_ifs with h1 h2 h3 h4 h5 h6 h7
  · simp only [electionEq, Bool.and_eq_true, beq_iff_eq] at h1
    obtain ⟨⟨⟨⟨⟨hsg, hmid⟩, hsuit⟩, hvotes⟩, hstat⟩, hterm⟩ := h1
    refine ⟨?_, hx, rfl, Or.inl rfl⟩
    have hxy : keyE x = keyE y := by
      unfold keyE; rw [hsuit, hmid]
    rw [← hxy, max_self]
  · exact absurd h2.2 hy
  · exact absurd h3.2 hx
  · exact absurd ht (Nat.ne_of_gt h4)
  · refine ⟨?_, by simpa [steal_votes_status] using hx,
      steal_votes_term x y, Or.inl (steal_votes_service_group x y)⟩
    have hlt : keyE y < keyE x :=
      (Prod.Lex.lt_iff _ _).mpr (Or.inl h5)
    rw [max_eq_left hlt.le]
    unfold keyE
    rw [steal_votes_suitability, steal_votes_member_id]
  · refine ⟨?_, by simpa [steal_votes_status] using hy,
      by rw [steal_votes_term]; exact ht.symm, Or.inr (steal_votes_service_group y x)⟩
    have hlt : keyE x < keyE y :=
      (Prod.Lex.lt_iff _ _).mpr (Or.inl h6)
    rw [max_eq_right hlt.le]
    unfold keyE
    rw [steal_votes_suitability, steal_votes_member_id]
  · have hs : y.suitability = x.suitability :=
      Nat.le_antisymm (Nat.not_lt.mp h6) (Nat.not_lt.mp h5)
    refine ⟨?_, by simpa [steal_votes_status] using hx,
      steal_votes_term x y, Or.inl (steal_votes_service_group x y)⟩
    have hle : keyE y ≤ keyE x :=
      (Prod.Lex.le_iff _ _).mpr (Or.inr ⟨hs, h7⟩)
    rw [max_eq_left hle]
    unfold keyE
    rw [steal_votes_suitability, steal_votes_member_id]
  · have hs : x.suitability = y.suitability :=
      Nat.le_antisymm (Nat.not_lt.mp h5) (Nat.not_lt.mp h6)
    refine ⟨?_, by simpa [steal_votes_status] using hy,
      by rw [steal_votes_term]; exact ht.symm, Or.inr (steal_votes_service_group y x)⟩
    have hle : keyE x ≤ keyE y :=
      (Prod.Lex.le_iff _ _).mpr
        (Or.inr ⟨hs, le_of_lt (lt_of_not_le h7)⟩)
    rw [max_eq_right hle]
    unfold keyE
    rw [steal_votes_suitability, steal_votes_member_id]

/-- `max` on the lexicographic product with equal first components is `max`
on the second components. -/
theorem lex_max_same_fst (s : Nat) (a b : String) :
    max (toLex (s, a) : Nat ×ₗ String) (toLex (s, b)) = toLex (s, max a b) := by
  rcases le_total a b with h | h
  · rw [max_eq_right ((Prod.Lex.le_iff (s, a) (s, b)).mpr (Or.inr ⟨rfl, h⟩)),
      max_eq_right h]
  · rw [max_eq_left ((Prod.Lex.le_iff (s, b) (s, a)).mpr (Or.inr ⟨rfl, h⟩)),
      max_eq_left h]

/-- An election in the uniform fragment: service group `g`, suitability
`s`, term `t`, not Finished. -/
def Frag (g : ServiceGroup) (s t : Nat) (e : Election) : Prop :=
  e.service_group = g ∧ e.suitability = s ∧ e.term = t
    ∧ e.status ≠ ElectionStatus.Finished

instance (g : ServiceGroup) (s t : Nat) (e : Election) :
    Decidable (Frag g s t e) := by
  unfold Frag
  infer_instance

/-- Within the uniform fragment, merging keeps the fragment and elects the
larger member id of the two contenders. -/
theorem merge_frag (g : ServiceGroup) (s t : Nat) (x y : Election)
    (hx : Frag g s t x) (hy : Frag g s t y) :
    Frag g s t (x.merge y).1
      ∧ (x.merge y).1.member_id = max x.member_id y.member_id := by
  obtain ⟨hxg, hxs, hxt, hxf⟩ := hx
  obtain ⟨hyg, hys, hyt, hyf⟩ := hy
  obtain ⟨hk, hst, hterm, hgrp⟩ := merge_key x y hxf hyf (hxt.trans hyt.symm)
  have hkx : keyE x = toLex (s, x.member_id) := by unfold keyE; rw [hxs]
  have hky : keyE y = toLex (s, y.member_id) := by unfold keyE; rw [hys]
  have hk' : keyE (x.merge y).1 = toLex (s, max x.member_id y.member_id) := by
    rw [hk, hkx, hky, lex_max_same_fst]
  have hpair : ((x.merge y).1.suitability, (x.merge y).1.member_id)
      = (s, max x.member_id y.member_id) := congrArg ofLex hk'
  have hsuit := congrArg Prod.fst hpair
  have hmid := congrArg Prod.snd hpair
  refine ⟨⟨?_, hsuit, hterm.trans hxt, hst⟩, hmid⟩
  rcases hgrp with h | h
  · rw [h, hxg]
  · rw [h, hyg]

/-- One gossip exchange: holder `i` merges a copy of holder `j`'s election
(the claim's "merging them pairwise"). -/
def IsStep (cs cs' : List Election) : Prop :=
  ∃ (i j : Nat) (hi : i < cs.length) (hj : j < cs.length),
    cs' = cs.set i (Election.merge cs[i] cs[j]).1

/-- Any sequence of pairwise merges, in any order. -/
def Reachable (cs cs' : List Election) : Prop :=
  Relation.ReflTransGen IsStep cs cs'

/-- A configuration no pairwise merge can change. -/
def IsFixedPoint (cs : List Election) : Prop :=
  ∀ (i : Nat) (hi : i < cs.length) (j : Nat) (hj : j < cs.length),
    (Election.merge cs[i] cs[j]).1 = cs[i]

/-- The invariant carried through merging rounds: every holder is in the
uniform fragment with member id at most `M`, and some holder's member id
is exactly `M`. -/
def CfgInv (g : ServiceGroup) (s t : Nat) (M : String)
    (cs : List Election) : Prop :=
  (∀ (i : Nat) (hi : i < cs.length), Frag g s t cs[i] ∧ cs[i].member_id ≤ M)
    ∧ ∃ (k : Nat) (hk : k < cs.length), cs[k].member_id = M

/-- One merge step preserves the invariant. -/
theorem isStep_preserves_cfgInv (g : ServiceGroup) (s t : Nat) (M : String)
    (cs cs' : List Election) (hstep : IsStep cs cs')
    (hinv : CfgInv g s t M cs) : CfgInv g s t M cs' := by
  obtain ⟨hu, k, hk, hkM⟩ := hinv
  obtain ⟨i, j, hi, hj, rfl⟩ := hstep
  have hf := merge_frag g s t cs[i] cs[j] (hu i hi).1 (hu j hj).1
  constructor
  · intro n hn
    have hn' : n < cs.length := by simpa using hn
    rw [List.getElem_set]
    by_cases hin : i = n
    · rw [if_pos hin]
      exact ⟨hf.1, by
        rw [hf.2]
        exact max_le (hu i hi).2 (hu j hj).2⟩
    · rw [if_neg hin]
      exact hu n hn'
  · by_cases hik : i = k
    · refine ⟨k, by simpa using hk, ?_⟩
      rw [List.getElem_set, if_pos hik]
      subst hik
      rw [hf.2, hkM]
      exact max_eq_left (hu j hj).2
    · refine ⟨k, by simpa using hk, ?_⟩
      rw [List.getElem_set, if_neg hik]
      exact hkM

/-- The invariant holds at every reachable configuration. -/
theorem reachable_preserves_cfgInv (g : ServiceGroup) (s t : Nat)
    (M : String) (cs cs' : List Election) (hr : Reachable cs cs')
    (hinv : CfgInv g s t M cs) : CfgInv g s t M cs' := by
  induction hr with
  | refl => exact hinv
  | tail _ hstep ih => exact isStep_preserves_cfgInv g s t M _ _ hstep ih

instance (cs : List Election) : Decidable (IsFixedPoint cs) := by
  unfold IsFixedPoint
  infer_instance

/-- Service group used by the concrete election scenarios. -/
def sgW : ServiceGroup := ⟨"witness.group"⟩

/-- A fresh election in which member "a" votes for itself
(`Election::new`). -/
def electionA : Election :=
  { from_id := "a", member_id := "a", service_group := sgW, term := 0,
    suitability := 0, status := .Running, votes := ["a"] }

/-- A fresh election in which member "b" votes for itself. -/
def electionB : Election :=
  { from_id := "b", member_id := "b", service_group := sgW, term := 0,
    suitability := 0, status := .Running, votes := ["b"] }

/-- A fresh election in which member "c" votes for itself. -/
def electionC : Election :=
  { from_id := "c", member_id := "c", service_group := sgW, term := 0,
    suitability := 0, status := .Running, votes := ["c"] }

/-- The election for "b" after it stole "a"'s vote. -/
def electionBA : Election := { electionB with votes := ["b", "a"] }

/-- Two holders, holding the fresh elections of "a" and "b". -/
def cfg0 : List Election := [electionA, electionB]

/-- After holder 0 merges holder 1's election. -/
def cfg1 : List Election := [electionBA, electionB]

/-- After holder 1 then merges holder 0's election: both agree on "b". -/
def cfg2 : List Election := [electionBA, electionBA]

theorem step_cfg0_cfg1 : IsStep cfg0 cfg1 :=
  ⟨0, 1, by decide, by decide, by decide⟩

theorem step_cfg1_cfg2 : IsStep cfg1 cfg2 :=
  ⟨1, 0, by decide, by decide, by decide⟩

theorem reach_cfg0_cfg2 : Reachable cfg0 cfg2 :=
  Relation.ReflTransGen.tail
    (Relation.ReflTransGen.single step_cfg0_cfg1) step_cfg1_cfg2

/-- C1 counterexample: two same-group elections with equal suitabilities
and terms, candidates "a" < "b".  A reachable fixed point of pairwise
merging leaves every holder on "b" — not on the lexicographically smallest
candidate "a", which refutes the claimed convergence target. -/
theorem election_merge_fixed_point_not_smallest :
    Reachable cfg0 cfg2 ∧ IsFixedPoint cfg2
      ∧ (∀ (i : Nat) (hi : i < cfg0.length), "a" ≤ cfg0[i].member_id)
      ∧ (∀ (i : Nat) (hi : i < cfg2.length), cfg2[i].member_id ≠ "a") :=
  ⟨reach_cfg0_cfg2, by decide, by decide, by decide⟩

/-- C1 (amended): for every finite set of non-Finished Election rumors for
the same service group with equal suitabilities and equal terms, repeatedly
merging them pairwise, in any order, converges every holder at a fixed
point to the election whose `member_id` is the lexicographically largest of
the candidates (not the smallest). -/
theorem election_merge_converges_to_largest (g : ServiceGroup) (s t : Nat)
    (M : String) (cs0 cs : List Election)
    (hfrag : ∀ (i : Nat) (hi : i < cs0.length), Frag g s t cs0[i])
    (hub : ∀ (i : Nat) (hi : i < cs0.length), cs0[i].member_id ≤ M)
    (hmax : ∃ (k : Nat) (hk : k < cs0.length), cs0[k].member_id = M)
    (hr : Reachable cs0 cs) (hfix : IsFixedPoint cs) :
    ∀ (i : Nat) (hi : i < cs.length), cs[i].member_id = M := by
  have hinv := reachable_preserves_cfgInv g s t M cs0 cs hr
    ⟨fun i hi => ⟨hfrag i hi, hub i hi⟩, hmax⟩
  obtain ⟨hu, k, hk, hkM⟩ := hinv
  intro i hi
  have hfp := hfix i hi k hk
  have hf := merge_frag g s t cs[i] cs[k] (hu i hi).1 (hu k hk).1
  rw [hfp] at hf
  have hmid := hf.2
  rw [hkM, max_eq_right] at hmid
  · exact hmid
  · exact (hu i hi).2

/-- Witness for the amended C1 theorem at the concrete two-member
scenario: candidates "a" and "b", every holder converges to "b". -/
theorem election_merge_converges_to_largest_witness :
    (∀ (i : Nat) (hi : i < cfg0.length), Frag sgW 0 0 cfg0[i])
      ∧ (∀ (i : Nat) (hi : i < cfg0.length), cfg0[i].member_id ≤ "b")
      ∧ (∃ (k : Nat) (hk : k < cfg0.length), cfg0[k].member_id = "b")
      ∧ Reachable cfg0 cfg2 ∧ IsFixedPoint cfg2
      ∧ ∀ (i : Nat) (hi : i < cfg2.length), cfg2[i].member_id = "b" :=
  ⟨by decide, by decide, ⟨1, by decide, by decide⟩, reach_cfg0_cfg2, by decide,
    election_merge_converges_to_largest sgW 0 0 "b" cfg0 cfg2
      (by decide) (by decide) ⟨1, by decide, by decide⟩ reach_cfg0_cfg2 (by decide)⟩

/-- C4 counterexample: merging the fresh elections of "b" then "c" into
"a"'s election yields a different final state (different votes order) than
merging "c" then "b", refuting full-state merge commutativity. -/
theorem election_merge_order_dependent :
    ((electionA.merge electionB).1.merge electionC).1
      ≠ ((electionA.merge electionC).1.merge electionB).1 := by decide

/-- C4 (amended): for Election rumors of the same key that are non-Finished
with equal terms, merging `b` then `c` into `a` and merging `c` then `b`
into `a` agree on the winning candidate — final `member_id` and
`suitability` — but not necessarily on the full state (the votes lists can
differ in order), so commutativity as claimed fails. -/
theorem election_merge_winner_commutes (a b c : Election)
    (ha : a.status ≠ ElectionStatus.Finished)
    (hb : b.status ≠ ElectionStatus.Finished)
    (hc : c.status ≠ ElectionStatus.Finished)
    (hgb : b.service_group = a.service_group)
    (hgc : c.service_group = a.service_group)
    (htb : b.term = a.term) (htc : c.term = a.term) :
    ((a.merge b).1.merge c).1.member_id
        = ((a.merge c).1.merge b).1.member_id
      ∧ ((a.merge b).1.merge c).1.suitability
        = ((a.merge c).1.merge b).1.suitability := by
  obtain ⟨hk1, hs1, ht1, _⟩ := merge_key a b ha hb htb.symm
  obtain ⟨hk2, hs2, ht2, _⟩ := merge_key (a.merge b).1 c hs1 hc
    (ht1.trans htc.symm)
  obtain ⟨hk3, hs3, ht3, _⟩ := merge_key a c ha hc htc.symm
  obtain ⟨hk4, hs4, ht4, _⟩ := merge_key (a.merge c).1 b hs3 hb
    (ht3.trans htb.symm)
  have hkey : keyE ((a.merge b).1.merge c).1
      = keyE ((a.merge c).1.merge b).1 := by
    rw [hk2, hk1, hk4, hk3, sup_right_comm]
  have hpair := congrArg ofLex hkey
  exact ⟨congrArg Prod.snd hpair, congrArg Prod.fst hpair⟩

/-- Witness for the amended C4 theorem at the three fresh elections of "a",
"b", "c": both merge orders elect "c" with suitability 0. -/
theorem election_merge_winner_commutes_witness :
    electionA.status ≠ ElectionStatus.Finished
      ∧ electionB.status ≠ ElectionStatus.Finished
      ∧ electionC.status ≠ ElectionStatus.Finished
      ∧ electionB.service_group = electionA.service_group
      ∧ electionC.service_group = electionA.service_group
      ∧ electionB.term = electionA.term
      ∧ electionC.term = electionA.term
      ∧ ((electionA.merge electionB).1.merge electionC).1.member_id
          = ((electionA.merge electionC).1.merge electionB).1.member_id
      ∧ ((electionA.merge electionB).1.merge electionC).1.suitability
          = ((electionA.merge electionC).1.merge electionB).1.suitability :=
  ⟨by decide, by decide, by decide, by decide, by decide, by decide,
    by decide,
    (election_merge_winner_commutes electionA electionB electionC
      (by decide) (by decide) (by decide) (by decide) (by decide)
      (by decide) (by decide)).1,
    (election_merge_winner_commutes electionA electionB electionC
      (by decide) (by decide) (by decide) (by decide) (by decide)
      (by decide) (by decide)).2⟩

/-- C6: for two same-group, equal-term, equal-suitability, non-Finished,
unequal elections, `Election::merge` resolves the tie on member id: if
`L.member_id ≥ I.member_id` it keeps `L`, appending `I`'s voters that are
not already present, and returns true; otherwise it adopts `I`, appending
`L`'s voters to `I`'s, and returns true. -/
theorem election_merge_equal_suitability_tie (L I : Election)
    (hne : electionEq L I = false)
    (hsg : L.service_group = I.service_group)
    (ht : L.term = I.term) (hs : L.suitability = I.suitability)
    (hLf : L.status ≠ ElectionStatus.Finished)
    (hIf : I.status ≠ ElectionStatus.Finished) :
    (I.member_id ≤ L.member_id →
        L.merge I = ({ L with votes := voteUnion L.votes I.votes }, true))
      ∧ (L.member_id < I.member_id →
        L.merge I = ({ I with votes := voteUnion I.votes L.votes }, true)) := by
  have hc1 : ¬ (electionEq L I = true) := by simp [hne]
  have hc2 : ¬ (I.term ≥ L.term ∧ I.status = ElectionStatus.Finished) :=
    fun hcon => hIf hcon.2
  have hc3 : ¬ (I.term = L.term ∧ L.status = ElectionStatus.Finished) :=
    fun hcon => hLf hcon.2
  have hc4 : ¬ (L.term > I.term) := by omega
  have hc5 : ¬ (L.suitability > I.suitability) := by omega
  have hc6 : ¬ (I.suitability > L.suitability) := by omega
  constructor
  · intro h
    unfold Election.merge
    rw [if_neg hc1, if_neg hc2, if_neg hc3, if_neg hc4, if_neg hc5,
      if_neg hc6, if_pos h, steal_votes_eq]
  · intro h
    unfold Election.merge
    rw [if_neg hc1, if_neg hc2, if_neg hc3, if_neg hc4, if_neg hc5,
      if_neg hc6, if_neg (not_le.mpr h), steal_votes_eq]

/-- Witness for C6 at `L` = "b"'s fresh election, `I` = "a"'s fresh
election: the tie keeps "b" and appends "a"'s vote. -/
theorem election_merge_equal_suitability_tie_witness :
    electionEq electionB electionA = false
      ∧ electionB.service_group = electionA.service_group
      ∧ electionB.term = electionA.term
      ∧ electionB.suitability = electionA.suitability
      ∧ electionB.status ≠ ElectionStatus.Finished
      ∧ electionA.status ≠ ElectionStatus.Finished
      ∧ electionA.member_id ≤ electionB.member_id
      ∧ electionB.merge electionA
          = ({ electionB with
                votes := voteUnion electionB.votes electionA.votes }, true) :=
  ⟨by decide, by decide, by decide, by decide, by decide, by decide,
    by decide,
    (election_merge_equal_suitability_tie electionB electionA (by decide)
        (by decide) (by decide) (by decide) (by decide) (by decide)).1
      (by decide)⟩

/-- Rust's `>=` over a `partial_cmp` that compares incarnations: true
exactly when the incoming incarnation is not greater. -/
theorem geOfCmp_compare (x y : Nat) :
    geOfCmp (some (compare x y)) = !decide (x < y) := by
  rcases Nat.lt_trichotomy x y with h | h | h
  · simp [Nat.compare_eq_lt.mpr h, geOfCmp, h]
  · subst h
    simp [Nat.compare_eq_eq.mpr rfl, geOfCmp, lt_irrefl]
  · simp [Nat.compare_eq_gt.mpr h, geOfCmp, Nat.lt_asymm h]

theorem service_merge_characterization (a b : Service) :
    a.merge b =
      if a.member_id = b.member_id ∧ a.service_group = b.service_group then
        (if a.incarnation < b.incarnation then (b, true) else (a, false))
      else (b, true) := by
  unfold Service.merge Service.cmpTo
  by_cases hcomp : a.member_id = b.member_id ∧ a.service_group = b.service_group
  · have hn : ¬ (a.member_id ≠ b.member_id ∨ a.service_group ≠ b.service_group) := by
      tauto
    rw [if_pos hcomp, if_neg hn, geOfCmp_compare]
    by_cases hlt : a.incarnation < b.incarnation
    · simp [hlt]
    · simp [hlt]
  · have ho : a.member_id ≠ b.member_id ∨ a.service_group ≠ b.service_group := by
      tauto
    rw [if_neg hcomp, if_pos ho]
    simp [geOfCmp]

theorem service_config_merge_characterization (a b : ServiceConfig) :
    a.merge b =
      if a.service_group = b.service_group then
        (if a.incarnation < b.incarnation then (b, true) else (a, false))
      else (b, true) := by
  unfold ServiceConfig.merge ServiceConfig.cmpTo
  by_cases hcomp : a.service_group = b.service_group
  · have hn : ¬ (a.service_group ≠ b.service_group) := by tauto
    rw [if_pos hcomp, if_neg hn, geOfCmp_compare]
    by_cases hlt : a.incarnation < b.incarnation
    · simp [hlt]
    · simp [hlt]
  · rw [if_neg hcomp, if_pos hcomp]
    simp [geOfCmp]

theorem service_file_merge_characterization (a b : ServiceFile) :
    a.merge b =
      if a.service_group = b.service_group then
        (if a.incarnation < b.incarnation then (b, true) else (a, false))
      else (b, true) := by
  unfold ServiceFile.merge ServiceFile.cmpTo
  by_cases hcomp : a.service_group = b.service_group
  · have hn : ¬ (a.service_group ≠ b.service_group) := by tauto
    rw [if_pos hcomp, if_neg hn, geOfCmp_compare]
    by_cases hlt : a.incarnation < b.incarnation
    · simp [hlt]
    · simp [hlt]
  · rw [if_neg hcomp, if_pos hcomp]
    simp [geOfCmp]

/-- C2 (amended): for matching keys (member id and service group for
Service, service group for ServiceConfig/ServiceFile) the merge replaces
the local rumor exactly when the incoming incarnation is strictly greater
(returning true), else keeps it (returning false); but for incomparable
records `*self >= other` is false, so the merge also replaces the local
rumor with the incoming one and returns true — it does not leave the local
rumor unchanged. -/
theorem rumor_merge_dominance_characterization :
    (∀ a b : Service,
        a.merge b =
          if a.member_id = b.member_id ∧ a.service_group = b.service_group
          then (if a.incarnation < b.incarnation then (b, true) else (a, false))
          else (b, true))
      ∧ (∀ a b : ServiceConfig,
        a.merge b =
          if a.service_group = b.service_group
          then (if a.incarnation < b.incarnation then (b, true) else (a, false))
          else (b, true))
      ∧ (∀ a b : ServiceFile,
        a.merge b =
          if a.service_group = b.service_group
          then (if a.incarnation < b.incarnation then (b, true) else (a, false))
          else (b, true)) :=
  ⟨service_merge_characterization, service_config_merge_characterization,
    service_file_merge_characterization⟩

/-- A service of member "m1" at incarnation 5. -/
def serviceM1 : Service :=
  { member_id := "m1", service_group := ⟨"app.prod"⟩, incarnation := 5,
    initialized := false, pkg := "core/app/1.0.0/20180101010101", cfg := [],
    sys := {} }

/-- A service of a different member "m2" at incarnation 0. -/
def serviceM2 : Service :=
  { member_id := "m2", service_group := ⟨"app.prod"⟩, incarnation := 0,
    initialized := false, pkg := "core/app/1.0.0/20180101010101", cfg := [7],
    sys := {} }

/-- C2 counterexample: two Service rumors of different members are
incomparable, yet `merge` replaces the local rumor with the incoming one
and returns true — the local rumor does not stay unchanged. -/
theorem service_merge_incomparable_replaces :
    serviceM1.member_id ≠ serviceM2.member_id
      ∧ serviceM1.merge serviceM2 = (serviceM2, true)
      ∧ serviceM2 ≠ serviceM1 := by decide

/-- Ingesting effects produced by mapping `ingest` over a membership list
recovers exactly that list. -/
theorem ingestedRecords_map_ingest (ms : List MembershipRecord) :
    ingestedRecords (ms.map fun m => Effect.ingest m.member m.health) = ms := by
  induction ms with
  | nil => rfl
  | cons m tl ih =>
    simp only [List.map_cons]
    unfold ingestedRecords at ih ⊢
    simp [List.filterMap_cons, ih]

/-- C3 (amended): the inbound dispatch ingests the piggybacked membership
records exactly for Ping messages from non-blacklisted senders and for
Acks it handles locally (no `forward_to`, or `forward_to` naming this
node); PingReq messages and Acks forwarded to another member never ingest
their piggybacked records. -/
theorem inbound_ingestion_characterization (selfId : String)
    (blacklist : List String) (memberList : String → Option Member)
    (parseOk : String → Bool) (addrIp : String) (msg : Swim) :
    ingestedRecords
        (handleSwim selfId blacklist memberList parseOk addrIp msg)
      = match msg.kind with
        | .ping p =>
          if blacklist.contains p.from_.id then [] else msg.membership
        | .ack a =>
          if blacklist.contains a.from_.id && a.forward_to.isNone then []
          else match a.forward_to with
            | some fwd => if fwd.id = selfId then msg.membership else []
            | none => msg.membership
        | .pingReq _ => [] := by
  unfold handleSwim
  cases hmk : msg.kind with
  | ping p =>
    dsimp only
    cases hb : blacklist.contains p.from_.id
    · simp only [Bool.false_eq_true, if_false]
      unfold processPing ingestedRecords
      simp only [List.filterMap_cons]
      exact ingestedRecords_map_ingest msg.membership
    · rfl
  | ack a =>
    dsimp only
    cases hb : blacklist.contains a.from_.id && a.forward_to.isNone
    · simp only [Bool.false_eq_true, if_false]
      unfold processAck
      cases hfwd : a.forward_to with
      | none =>
        unfold ingestedRecords
        simp only [List.filterMap_cons]
        exact ingestedRecords_map_ingest msg.membership
      | some fwd =>
        dsimp only
        by_cases hid : selfId ≠ fwd.id
        · rw [if_pos hid]
          have hid' : ¬ (fwd.id = selfId) := fun h => hid h.symm
          rw [if_neg hid']
          cases parseOk (fwd.address ++ ":" ++ toString fwd.swim_port) <;>
            simp [ingestedRecords]
        · rw [if_neg hid]
          have hid' : fwd.id = selfId := (not_not.mp hid).symm
          rw [if_pos hid']
          unfold ingestedRecords
          simp only [List.filterMap_cons]
          exact ingestedRecords_map_ingest msg.membership
    · rfl
  | pingReq p =>
    dsimp only
    cases hb : blacklist.contains p.from_.id
    · simp only [Bool.false_eq_true, if_false]
      unfold processPingReq
      cases memberList p.target.id <;> simp [ingestedRecords]
    · rfl

/-- A relay-path sender member. -/
def memberSender : Member :=
  { id := "sender", incarnation := 0, address := "10.0.0.2",
    swim_port := 9638, gossip_port := 9639, persistent := false,
    departed := false }

/-- The probe target named by a PingReq. -/
def memberTarget : Member :=
  { id := "target", incarnation := 0, address := "10.0.0.3",
    swim_port := 9638, gossip_port := 9639, persistent := false,
    departed := false }

/-- A third member whose membership record rides piggybacked. -/
def memberPiggy : Member :=
  { id := "gossiped", incarnation := 3, address := "10.0.0.4",
    swim_port := 9638, gossip_port := 9639, persistent := false,
    departed := false }

/-- The piggybacked membership record. -/
def piggyRecord : MembershipRecord :=
  { member := memberPiggy, health := Health.Confirmed }

/-- A decoded PingReq datagram carrying one piggybacked membership
record. -/
def pingReqSwim : Swim :=
  { type_ := SwimType.Pingreq
    membership := [piggyRecord]
    kind := SwimKind.pingReq
      { membership := [piggyRecord], from_ := memberSender,
        target := memberTarget } }

/-- C3 counterexample: a successfully decoded PingReq carries a
piggybacked membership record, yet the inbound dispatch ingests nothing
from it into the member list. -/
theorem pingreq_piggyback_not_ingested :
    pingReqSwim.membership = [piggyRecord]
      ∧ ingestedRecords
          (handleSwim "self-node" [] (fun _ => some memberTarget)
            (fun _ => true) "10.0.0.2" pingReqSwim) = [] := by decide

/-- A well-formed wire member for the PingReq sender. -/
def genMemberRelay : GenMember :=
  { id := some "relay-sender", incarnation := some 2,
    address := some "10.0.0.1", swim_port := some 9638,
    gossip_port := some 9639, persistent := some false,
    departed := some false }

/-- A wire PingReq whose required `target` field is absent. -/
def genSwimMissingTarget : GenSwim :=
  { type_ := 3
    membership := []
    payload := some (.pingreq { from_ := some genMemberRelay, target := none }) }

/-- C5: decoding a PingReq whose `target` is absent yields a
`ProtocolMismatch` error — but one naming `"from"`, not the actually
missing `"target"` field: the `target` line of `PingReq::from_proto`
passes the string `"from"` to `ProtocolMismatch`. -/
theorem pingreq_missing_target_misnamed_error :
    PingReq.from_proto genSwimMissingTarget
        = .error (.protocolMismatch "from")
      ∧ Err.protocolMismatch "from" ≠ Err.protocolMismatch "target" :=
  ⟨rfl, by decide⟩

/-- C7: `Membership::write_to_bytes` in protocol/swim.rs sizes a buffer to
the record's encoded length but never encodes into it, so it returns `Ok`
of the empty byte vector for every membership record. -/
theorem membership_write_to_bytes_empty (m : MembershipRecord) :
    m.write_to_bytes = .ok [] := rfl

/-- C8: for a wire Election rumor with `from_id` present that decodes
successfully, both `from_id` and `member_id` of the decoded election are
the envelope's `from_id`; the `member_id` carried inside the Election
payload is discarded — replacing it by anything decodes to the same
election. -/
theorem election_from_proto_takes_sender_id (r : ProtoRumor)
    (p : GenElection) (fid : String) (e : Election)
    (hp : r.payload = some (.election p)) (hf : r.from_id = some fid)
    (hok : Election.from_proto r = .ok e) :
    e.from_id = fid ∧ e.member_id = fid
      ∧ ∀ x : Option String,
          Election.from_proto
              { r with payload := some (.election { p with member_id := x }) }
            = .ok e := by
  have hok' := hok
  unfold Election.from_proto at hok'
  rw [hp] at hok'
  dsimp only at hok'
  rw [hf] at hok'
  dsimp only at hok'
  cases hps : p.service_group with
  | none =>
    rw [hps] at hok'
    simp at hok'
  | some s =>
    rw [hps] at hok'
    dsimp only at hok'
    cases hsg : ServiceGroup.fromStr s with
    | error err =>
      rw [hsg] at hok'
      simp at hok'
    | ok sg =>
      rw [hsg] at hok'
      dsimp only at hok'
      injection hok' with he
      refine ⟨by rw [← he], by rw [← he], ?_⟩
      intro x
      unfold Election.from_proto
      dsimp only
      simp only [hf, hps, hsg]
      rw [he]

/-- The Election payload of the concrete wire rumor: the candidate voted
for is "victim-id". -/
def genElectionPayload : GenElection :=
  { member_id := some "victim-id", service_group := some "web.prod",
    term := some 4, suitability := some 7, status := some 1,
    votes := ["victim-id"] }

/-- A concrete wire Election rumor sent by "sender-id". -/
def electionRumorWire : ProtoRumor :=
  { type_ := 3, tag := [], from_id := some "sender-id",
    payload := some (.election genElectionPayload) }

/-- What `Election::from_proto` makes of it: the candidate is replaced by
the sender. -/
def electionDecoded : Election :=
  { from_id := "sender-id", member_id := "sender-id",
    service_group := ⟨"web.prod"⟩, term := 4, suitability := 7,
    status := .Running, votes := ["victim-id"] }

/-- Witness for C8 at the concrete wire rumor: the decoded election names
"sender-id", not the payload's "victim-id". -/
theorem election_from_proto_takes_sender_id_witness :
    electionRumorWire.payload = some (.election genElectionPayload)
      ∧ electionRumorWire.from_id = some "sender-id"
      ∧ Election.from_proto electionRumorWire = .ok electionDecoded
      ∧ electionDecoded.from_id = "sender-id"
      ∧ electionDecoded.member_id = "sender-id"
      ∧ ∀ x : Option String,
          Election.from_proto
              { electionRumorWire with
                payload := some (.election
                  { genElectionPayload with member_id := x }) }
            = .ok electionDecoded :=
  have h := election_from_proto_takes_sender_id electionRumorWire
    genElectionPayload "sender-id" electionDecoded rfl rfl rfl
  ⟨rfl, rfl, rfl, h.1, h.2.1, h.2.2⟩

/-- C9 (amended): whenever `ServiceFile::from_bytes` succeeds, the decoded
`encrypted` flag is read from the wire record's `initialized` field (its
`encrypted` fields are never consulted); and the write/read pair does not
round-trip at all — `write_to_bytes` stores every data field inside the
nested payload while `from_bytes` reads top-level fields, so decoding a
written ServiceFile always fails with `ProtocolMismatch "service-group"`
(in particular no decode of a written ServiceFile ever reports
`encrypted = true`). -/
theorem service_file_round_trip_broken (r : ProtoRumor) (sf x : ServiceFile)
    (hok : ServiceFile.from_bytes r = .ok sf) :
    sf.encrypted = r.initialized.getD false
      ∧ ServiceFile.from_bytes (ServiceFile.write_to_bytes x)
          = .error (.protocolMismatch "service-group") := by
  constructor
  · have hok' := hok
    unfold ServiceFile.from_bytes at hok'
    cases hp : r.payload with
    | none =>
      rw [hp] at hok'
      simp at hok'
    | some pl =>
      rw [hp] at hok'
      cases pl <;> try (dsimp only at hok'; simp at hok')
      case serviceFile q =>
        dsimp only at hok'
        cases hf : r.from_id with
        | none => rw [hf] at hok'; simp at hok'
        | some fid =>
          rw [hf] at hok'
          dsimp only at hok'
          cases hsgf : r.service_group with
          | none => rw [hsgf] at hok'; simp at hok'
          | some sgs =>
            rw [hsgf] at hok'
            dsimp only at hok'
            cases hsg : ServiceGroup.fromStr sgs with
            | error err => rw [hsg] at hok'; simp at hok'
            | ok sg =>
              rw [hsg] at hok'
              dsimp only at hok'
              cases hfn : r.filename with
              | none => rw [hfn] at hok'; simp at hok'
              | some fn =>
                rw [hfn] at hok'
                dsimp only at hok'
                injection hok' with he
                rw [← he]
  · rfl

/-- A concrete encrypted ServiceFile. -/
def serviceFileSecret : ServiceFile :=
  { from_id := "author", service_group := ⟨"web.prod"⟩, incarnation := 3,
    encrypted := true, filename := "secret.toml", body := [1, 2, 3] }

/-- C9 counterexample: encoding an encrypted ServiceFile and decoding it
does not produce a ServiceFile with `encrypted = false` (as the claim
states) — it produces no ServiceFile at all: the decode fails with
`ProtocolMismatch "service-group"`. -/
theorem service_file_round_trip_fails_on_secret :
    serviceFileSecret.encrypted = true
      ∧ ServiceFile.from_bytes (ServiceFile.write_to_bytes serviceFileSecret)
          = .error (.protocolMismatch "service-group") :=
  ⟨rfl, rfl⟩

/-- A wire rumor record for a ServiceFile in the old flat layout, with
`initialized = true` but payload `encrypted = false`. -/
def serviceFileRumorWire : ProtoRumor :=
  { type_ := 5, tag := [], from_id := some "author",
    payload := some (.serviceFile
      { service_group := some "web.prod", incarnation := some 3,
        encrypted := some false, filename := some "ignored",
        body := some [9] }),
    service_group := some "web.prod", incarnation := some 3,
    initialized := some true, filename := some "secret.toml",
    body := some [1, 2] }

/-- What `ServiceFile::from_bytes` decodes it to: `encrypted` is true,
taken from `initialized`. -/
def serviceFileDecoded : ServiceFile :=
  { from_id := "author", service_group := ⟨"web.prod"⟩, incarnation := 3,
    encrypted := true, filename := "secret.toml", body := [1, 2] }

/-- Witness for C9 at the concrete wire record and ServiceFile. -/
theorem service_file_round_trip_broken_witness :
    ServiceFile.from_bytes serviceFileRumorWire = .ok serviceFileDecoded
      ∧ serviceFileDecoded.encrypted
          = serviceFileRumorWire.initialized.getD false
      ∧ ServiceFile.from_bytes
            (ServiceFile.write_to_bytes serviceFileSecret)
          = .error (.protocolMismatch "service-group") :=
  have h := service_file_round_trip_broken serviceFileRumorWire
    serviceFileDecoded serviceFileSecret rfl
  ⟨rfl, h.1, h.2⟩

/-- C10: a wire Membership record whose member decodes and whose `health`
is absent or holds an unrecognized enum value decodes successfully, with
health defaulted to Alive and a missing incarnation defaulted to 0,
instead of being rejected. -/
theorem membership_from_proto_health_defaults (p : GenMembership)
    (gm : GenMember) (i a : String) (sp gp : Int)
    (hm : p.member = some gm) (hid : gm.id = some i)
    (ha : gm.address = some a) (hsp : gm.swim_port = some sp)
    (hgp : gm.gossip_port = some gp)
    (hh : p.health.bind Health.from_i32 = none) :
    MembershipRecord.from_proto p
      = .ok { member := { id := i, incarnation := gm.incarnation.getD 0,
                          address := a, swim_port := sp, gossip_port := gp,
                          persistent := gm.persistent.getD false,
                          departed := gm.departed.getD false },
              health := Health.Alive } := by
  unfold MembershipRecord.from_proto Member.from_proto
  rw [hm]
  dsimp only
  rw [hid]
  dsimp only
  rw [ha]
  dsimp only
  rw [hsp]
  dsimp only
  rw [hgp]
  dsimp only
  rw [hh]
  rfl

/-- A wire member with no incarnation field. -/
def genMemberNode1 : GenMember :=
  { id := some "node-1", incarnation := none, address := some "10.1.1.1",
    swim_port := some 9638, gossip_port := some 9639, persistent := none,
    departed := none }

/-- A wire membership record with an unrecognized health value. -/
def genMembershipBadHealth : GenMembership :=
  { member := some genMemberNode1, health := some 99 }

/-- Witness for C10: health 99 is unrecognized, yet decoding succeeds with
Alive and incarnation 0. -/
theorem membership_from_proto_health_defaults_witness :
    genMembershipBadHealth.member = some genMemberNode1
      ∧ genMemberNode1.id = some "node-1"
      ∧ genMemberNode1.address = some "10.1.1.1"
      ∧ genMemberNode1.swim_port = some 9638
      ∧ genMemberNode1.gossip_port = some 9639
      ∧ genMembershipBadHealth.health.bind Health.from_i32 = none
      ∧ MembershipRecord.from_proto genMembershipBadHealth
          = .ok { member := { id := "node-1", incarnation := 0,
                              address := "10.1.1.1", swim_port := 9638,
                              gossip_port := 9639, persistent := false,
                              departed := false },
                  health := Health.Alive } :=
  ⟨rfl, rfl, rfl, rfl, rfl, rfl,
    membership_from_proto_health_defaults genMembershipBadHealth
      genMemberNode1 "node-1" "10.1.1.1" 9638 9639 rfl rfl rfl rfl rfl rfl⟩
